import Mathlib

/-!
# Model of `tensorly/contrib/visualisation.py`

A shallow embedding of the plotting module: `plot_kruskal_factors`,
`plot_tucker_factors` and the shared grid builder `_plot_component_groups`.

Matplotlib is modelled by its observable effect on the returned axis grid:
each axes object is a cell that, once drawn on, records which plotting
function drew it, the 1-D data it was given, and the title that was set.
Python exceptions (`IndexError` from numpy/list indexing, `KeyError` from the
dict lookup, `ValueError` from `plt.subplots` with a non-positive dimension)
are modelled with `Except`.  The figure handle carries no verified content
and is omitted from the result.
-/

namespace Visualisation

/-- A Python exception class surfaced by this module: `IndexError` (list or
numpy indexing), `KeyError` (dict lookup), `ValueError` (`plt.subplots` with
a non-positive row/column count). -/
inductive PyError where
  | indexError : PyError
  | keyError : PyError
  | valueError : PyError
deriving DecidableEq

/-- A factor matrix of shape `(N, R)`, stored as its list of `R` columns,
each column being the 1-D slice `A[:, j]`. -/
structure Mat where
  cols : List (List Int)
deriving DecidableEq

/-- `A.shape[1]`: the number of columns of the factor matrix. -/
def Mat.shape1 (A : Mat) : Nat := A.cols.length

/-- The numpy column slice `A[:, c]`, with Python index semantics:
`0 ≤ c < R` selects column `c`, `-R ≤ c < 0` selects column `R + c`, and
anything outside `[-R, R)` raises `IndexError` (modelled as `none`). -/
def Mat.colSlice (A : Mat) (c : Int) : Option (List Int) :=
  let R : Int := (A.cols.length : Int)
  if 0 ≤ c then
    if c < R then A.cols[c.toNat]? else none
  else
    if -R ≤ c then A.cols[(R + c).toNat]? else none

/-- A plotting function: either the module's default `_line_plot`, or a
caller-supplied custom function (identified by an opaque tag).  Custom
functions are modelled by the draw record they leave on the axes. -/
inductive PlotFn where
  | line_plot : PlotFn
  | custom : Nat → PlotFn
deriving DecidableEq

/-- The default plotting function `_line_plot(ax, data)`: `ax.plot(data)`. -/
def _line_plot : PlotFn := PlotFn.line_plot

/-- The observable state of one axes object after the builder has drawn on
it: which plotting function drew it, the data passed to that function, and
the title set by `set_title`. -/
structure Panel where
  drawnBy : PlotFn
  data : List Int
  title : String
deriving DecidableEq

/-- The numpy object array returned by `plt.subplots` and reshaped by the
builder: a scalar (0-D), a 1-D array, or a 2-D array of axes.  A cell is
`none` while the axes object is still untouched. -/
inductive AxArr where
  | scalar : Option Panel → AxArr
  | one : List (Option Panel) → AxArr
  | two : List (List (Option Panel)) → AxArr
deriving DecidableEq

/-- `plt.subplots(nrows, ncols)` with the default `squeeze=True`:
a single axes object for a 1×1 grid, a 1-D array when exactly one of the
dimensions is 1, a 2-D array otherwise; `ValueError` (from `GridSpec`) when
either dimension is 0. -/
def subplots (nRows nCols : Nat) : Except PyError AxArr :=
  if nRows = 0 ∨ nCols = 0 then .error .valueError
  else if nRows = 1 ∧ nCols = 1 then .ok (.scalar none)
  else if nRows = 1 then .ok (.one (List.replicate nCols none))
  else if nCols = 1 then .ok (.one (List.replicate nRows none))
  else .ok (.two (List.replicate nRows (List.replicate nCols none)))

/-- `np.array([axis])`: wrapping in a singleton list adds one leading
dimension.  A scalar axes object is not array-like, so the result is a
shape-`(1,)` object array, not a 2-D array.  (The builder only applies this
to the scalar or 1-D results of `subplots`, never to a 2-D array.) -/
def npArrayWrap : AxArr → AxArr
  | .scalar p => .one [p]
  | .one v => .two [v]
  | .two m => .two m

/-- Transpose of a rectangular list-of-rows matrix (numpy transpose of a
2-D array): column `j` of the input becomes row `j` of the output. -/
def transpose2 : List (List (Option Panel)) → List (List (Option Panel))
  | [] => []
  | [r] => r.map (fun p => [p])
  | r :: rs => List.zipWith (fun a col => a :: col) r (transpose2 rs)

/-- numpy `.T`: transposing a 0-D or 1-D array returns it unchanged; a 2-D
array is transposed. -/
def AxArr.transposeT : AxArr → AxArr
  | .scalar p => .scalar p
  | .one v => .one v
  | .two m => .two (transpose2 m)

/-- Two-index read `axis[row, col]`: succeeds only on a 2-D array with both
indices in range; on a 0-D or 1-D array numpy raises
`IndexError: too many indices` (modelled as `none`). -/
def AxArr.get2 : AxArr → Nat → Nat → Option (Option Panel)
  | .two m, r, c =>
    match m[r]? with
    | some rowL => rowL[c]?
    | none => none
  | .scalar _, _, _ => none
  | .one _, _, _ => none

/-- Record the drawing done on the axes at `[row, col]` of a 2-D array
(out-of-range writes never happen: the builder reads the cell first). -/
def AxArr.set2 : AxArr → Nat → Nat → Panel → AxArr
  | .two m, r, c, p => .two (m.set r ((m.getD r []).set c (some p)))
  | .scalar q, _, _, _ => .scalar q
  | .one v, _, _, _ => .one v

/-- Lookup in `plot_bank`, the dict `{i: _line_plot for i in range(n_cols)}`
updated with `custom_plots`: a custom entry wins on its key, the default
covers `0 ≤ mode < n_cols`, and any other key raises `KeyError` (`none`).
`custom_plots` is a Python dict, modelled as an association list with
distinct keys. -/
def plotBank (nCols : Nat) (custom : Option (List (Int × PlotFn))) (mode : Nat) :
    Option PlotFn :=
  match custom with
  | some cp =>
    match cp.lookup (mode : Int) with
    | some f => some f
    | none => if mode < nCols then some _line_plot else none
  | none => if mode < nCols then some _line_plot else none

/-- The title string `"Mode-{}, Component #{}".format(mode, n_component)`. -/
def panelTitle (mode : Nat) (c : Int) : String :=
  "Mode-" ++ toString mode ++ ", Component #" ++ toString c

/-- The inner loop `for mode, n_component in enumerate(group)`: look up the
plotting function, take the column slice `factors[mode][:, n_component]`,
index the axes at `[row, mode]`, draw on it and set its title.  The errors
arise in source order: `KeyError` from `plot_bank[mode]`, then `IndexError`
from `factors[mode]`, then from the column slice, then from `axis[row, col]`. -/
def drawRow (factors : List Mat) (nCols : Nat)
    (custom : Option (List (Int × PlotFn))) (row : Nat) :
    Nat → List Int → AxArr → Except PyError AxArr
  | _, [], axis => .ok axis
  | mode, c :: rest, axis =>
    match plotBank nCols custom mode with
    | none => .error .keyError
    | some pf =>
      match factors[mode]? with
      | none => .error .indexError
      | some A =>
        match A.colSlice c with
        | none => .error .indexError
        | some comp =>
          match axis.get2 row mode with
          | none => .error .indexError
          | some _ =>
            drawRow factors nCols custom row (mode + 1) rest
              (axis.set2 row mode ⟨pf, comp, panelTitle mode c⟩)

/-- The outer loop `for row, group in enumerate(combinations)`. -/
def drawRows (factors : List Mat) (nCols : Nat)
    (custom : Option (List (Int × PlotFn))) :
    Nat → List (List Int) → AxArr → Except PyError AxArr
  | _, [], axis => .ok axis
  | row, grp :: rest, axis =>
    match drawRow factors nCols custom row 0 grp axis with
    | .error e => .error e
    | .ok axis' => drawRows factors nCols custom (row + 1) rest axis'

/-- `_plot_component_groups(factors, combinations, custom_plots)`: allocate
the subplot grid, normalize it (`axis = np.array([axis])`, transposed when
`n_cols == 1`) whenever `n_rows == 1 or n_cols == 1`, then draw every
combination.  Returns the axis grid; `plt.tight_layout()` has no effect on
the modelled state. -/
def _plot_component_groups (factors : List Mat) (combinations : List (List Int))
    (custom_plots : Option (List (Int × PlotFn))) : Except PyError AxArr :=
  let n_rows := combinations.length
  let n_cols := factors.length
  match subplots n_rows n_cols with
  | .error e => .error e
  | .ok axis0 =>
    let axis1 :=
      if n_rows = 1 ∨ n_cols = 1 then
        if n_cols = 1 then (npArrayWrap axis0).transposeT else npArrayWrap axis0
      else axis0
    drawRows factors n_cols custom_plots 0 combinations axis1

/-- The default-component selection in `plot_kruskal_factors` when
`components is None`: `default_length` is `max_default_length` if
`factors[0].shape[1] >= max_default_length`, else `factors[0].shape[1]`;
the components are `[i for i in range(default_length)]`.  `factors[0]`
raises `IndexError` on an empty factors list. -/
def kruskalDefaultComponents (factors : List Mat) (max_default_length : Int) :
    Except PyError (List Int) :=
  match factors[0]? with
  | none => .error .indexError
  | some A =>
    let d : Int :=
      if (A.shape1 : Int) ≥ max_default_length then max_default_length
      else (A.shape1 : Int)
    .ok ((List.range d.toNat).map (fun i => Int.ofNat i))

/-- `combinations = [tuple([i] * len(factors)) for i in components]`. -/
def kruskalCombinations (factors : List Mat) (components : List Int) :
    List (List Int) :=
  components.map (fun i => List.replicate factors.length i)

/-- `plot_kruskal_factors(factors, components, max_default_length,
custom_plots)`. -/
def plot_kruskal_factors (factors : List Mat) (components : Option (List Int))
    (max_default_length : Int) (custom_plots : Option (List (Int × PlotFn))) :
    Except PyError AxArr :=
  match
    (match components with
     | some cs => Except.ok cs
     | none => kruskalDefaultComponents factors max_default_length) with
  | .error e => .error e
  | .ok comps =>
    _plot_component_groups factors (kruskalCombinations factors comps) custom_plots

/-- `plot_tucker_factors(factors, combinations, custom_plots)`: when
`combinations is None`, default to `[tuple([0] * len(factors))]`. -/
def plot_tucker_factors (factors : List Mat)
    (combinations : Option (List (List Int)))
    (custom_plots : Option (List (Int × PlotFn))) : Except PyError AxArr :=
  let combs :=
    match combinations with
    | some cs => cs
    | none => [List.replicate factors.length 0]
  _plot_component_groups factors combs custom_plots

/-- The grid is a 2-D array with `nr` rows, each of length `nc`. -/
def AxArr.isGrid : AxArr → Nat → Nat → Bool
  | .two m, nr, nc => m.length = nr && m.all (fun r => r.length = nc)
  | .scalar _, _, _ => false
  | .one _, _, _ => false

/-- The row count of a 2-D grid (`none` on a 0-D or 1-D array). -/
def AxArr.numRows2 : AxArr → Option Nat
  | .two m => some m.length
  | .scalar _ => none
  | .one _ => none

/-! ## Lemmas about grid cells -/

theorem get2_isSome_of_isGrid {a : AxArr} {nr nc r c : Nat}
    (hg : a.isGrid nr nc = true) (hr : r < nr) (hc : c < nc) :
    ∃ q, a.get2 r c = some q := by
  cases a with
  | scalar p => simp [AxArr.isGrid] at hg
  | one v => simp [AxArr.isGrid] at hg
  | two m =>
    simp only [AxArr.isGrid, Bool.and_eq_true, decide_eq_true_eq,
      List.all_eq_true] at hg
    obtain ⟨hlen, hrow⟩ := hg
    have hrm : r < m.length := by omega
    have h1 : m[r]? = some m[r] := List.getElem?_eq_getElem hrm
    have h2 : (m[r]).length = nc := hrow _ (List.getElem_mem hrm)
    have hcm : c < (m[r]).length := by omega
    exact ⟨(m[r])[c], by
      simp only [AxArr.get2, h1]
      exact List.getElem?_eq_getElem hcm⟩

theorem get2_set2_self {a : AxArr} {r c : Nat} {q : Option Panel} {p : Panel}
    (h : a.get2 r c = some q) :
    (a.set2 r c p).get2 r c = some (some p) := by
  cases a with
  | scalar _ => simp [AxArr.get2] at h
  | one _ => simp [AxArr.get2] at h
  | two m =>
    simp only [AxArr.get2] at h
    split at h
    next rowL hm =>
      have hrm : r < m.length := by
        rcases Nat.lt_or_ge r m.length with h' | h'
        · exact h'
        · rw [List.getElem?_eq_none h'] at hm; cases hm
      have hcl : c < rowL.length := by
        rcases Nat.lt_or_ge c rowL.length with h' | h'
        · exact h'
        · rw [List.getElem?_eq_none h'] at h; cases h
      have hgetD : m.getD r [] = rowL := by
        simp [List.getD_eq_getElem?_getD, hm]
      simp only [AxArr.set2, AxArr.get2, hgetD]
      rw [List.getElem?_set_self (by simpa using hrm)]
      exact List.getElem?_set_self (by simpa using hcl)
    next hm => cases h

theorem get2_set2_ne {a : AxArr} {r c r' c' : Nat} {p : Panel}
    (h : r' ≠ r ∨ c' ≠ c) :
    (a.set2 r c p).get2 r' c' = a.get2 r' c' := by
  cases a with
  | scalar _ => rfl
  | one _ => rfl
  | two m =>
    by_cases hr : r' = r
    · subst hr
      have hc : c' ≠ c := h.resolve_left (by simp)
      simp only [AxArr.set2, AxArr.get2]
      by_cases hrm : r' < m.length
      · rw [List.getElem?_set_self (by simpa using hrm)]
        rw [List.getElem?_eq_getElem hrm]
        have hgetD : m.getD r' [] = m[r'] := by
          simp [List.getD_eq_getElem?_getD, List.getElem?_eq_getElem hrm]
        rw [hgetD]
        show ((m[r']).set c (some p))[c']? = (m[r'])[c']?
        exact List.getElem?_set_ne (Ne.symm hc)
      · rw [List.set_eq_of_length_le (by omega)]
    · simp only [AxArr.set2, AxArr.get2]
      rw [List.getElem?_set_ne (Ne.symm hr)]

theorem all_set_of_length_eq {α : Type} (nc : Nat) :
    ∀ (m : List (List α)) (r : Nat) (L : List α),
      L.length = (m.getD r []).length →
      (m.set r L).all (fun row => row.length = nc) =
        m.all (fun row => row.length = nc)
  | [], _, _, _ => rfl
  | row :: rest, 0, L, h => by
    simp only [List.getD_cons_zero] at h
    simp [List.all_cons, h]
  | row :: rest, r + 1, L, h => by
    simp only [List.getD_cons_succ] at h
    have ih := all_set_of_length_eq nc rest r L h
    simp [List.all_cons, ih]

theorem isGrid_set2 {a : AxArr} {nr nc r c : Nat} {p : Panel} :
    (a.set2 r c p).isGrid nr nc = a.isGrid nr nc := by
  cases a with
  | scalar _ => rfl
  | one _ => rfl
  | two m =>
    simp only [AxArr.set2, AxArr.isGrid, List.length_set]
    rw [all_set_of_length_eq nc m r _ (by simp)]

/-! ## The inner drawing loop -/

theorem drawRow_ok_frame {factors : List Mat} {nCols : Nat}
    {custom : Option (List (Int × PlotFn))} {row : Nat} (grp : List Int) :
    ∀ (mode : Nat) (axis axis' : AxArr),
      drawRow factors nCols custom row mode grp axis = .ok axis' →
      ∀ r' c', (r' ≠ row ∨ c' < mode) → axis'.get2 r' c' = axis.get2 r' c' := by
  induction grp with
  | nil =>
    intro mode axis axis' h r' c' _
    simp only [drawRow] at h
    cases h
    rfl
  | cons c rest ih =>
    intro mode axis axis' h r' c' hcond
    simp only [drawRow] at h
    split at h
    next => cases h
    next pf hpb =>
      split at h
      next => cases h
      next A hf =>
        split at h
        next => cases h
        next comp hs =>
          split at h
          next => cases h
          next q hg =>
            have h1 := ih (mode + 1) _ axis' h r' c'
              (by rcases hcond with h' | h'
                  · exact Or.inl h'
                  · exact Or.inr (Nat.lt_succ_of_lt h'))
            rw [h1, get2_set2_ne]
            rcases hcond with h' | h'
            · exact Or.inl h'
            · exact Or.inr (Nat.ne_of_lt h')

theorem drawRow_ok_get2 {factors : List Mat} {nCols : Nat}
    {custom : Option (List (Int × PlotFn))} {row : Nat} (grp : List Int) :
    ∀ (mode : Nat) (axis axis' : AxArr),
      drawRow factors nCols custom row mode grp axis = .ok axis' →
      ∀ j c, grp[j]? = some c →
        ∃ pf A comp,
          plotBank nCols custom (mode + j) = some pf ∧
          factors[mode + j]? = some A ∧
          A.colSlice c = some comp ∧
          axis'.get2 row (mode + j) =
            some (some ⟨pf, comp, panelTitle (mode + j) c⟩) := by
  induction grp with
  | nil => intro mode axis axis' h j c hj; simp at hj
  | cons c0 rest ih =>
    intro mode axis axis' h j c hj
    simp only [drawRow] at h
    split at h
    next => cases h
    next pf hpb =>
      split at h
      next => cases h
      next A hf =>
        split at h
        next => cases h
        next comp hs =>
          split at h
          next => cases h
          next q hg =>
            cases j with
            | zero =>
              simp only [List.getElem?_cons_zero, Option.some.injEq] at hj
              subst hj
              refine ⟨pf, A, comp, ?_, ?_, hs, ?_⟩
              · simpa using hpb
              · simpa using hf
              · have hfr := drawRow_ok_frame rest (mode + 1) _ axis' h row mode
                  (Or.inr (Nat.lt_succ_self mode))
                simp only [Nat.add_zero]
                rw [hfr]
                exact get2_set2_self hg
            | succ j' =>
              have hj' : rest[j']? = some c := by simpa using hj
              obtain ⟨pf', A', comp', h1, h2, h3, h4⟩ := ih (mode + 1) _ axis' h j' c hj'
              rw [show mode + (j' + 1) = mode + 1 + j' from by omega]
              exact ⟨pf', A', comp', h1, h2, h3, h4⟩

theorem drawRow_ok_isGrid {factors : List Mat} {nCols : Nat}
    {custom : Option (List (Int × PlotFn))} {row : Nat} {nr nc : Nat}
    (grp : List Int) :
    ∀ (mode : Nat) (axis axis' : AxArr),
      drawRow factors nCols custom row mode grp axis = .ok axis' →
      axis'.isGrid nr nc = axis.isGrid nr nc := by
  induction grp with
  | nil => intro _ _ _ h; cases h; rfl
  | cons c rest ih =>
    intro mode axis axis' h
    simp only [drawRow] at h
    split at h
    next => cases h
    next pf hpb =>
      split at h
      next => cases h
      next A hf =>
        split at h
        next => cases h
        next comp hs =>
          split at h
          next => cases h
          next q hg => rw [ih (mode + 1) _ axis' h, isGrid_set2]

/-! ## The outer drawing loop -/

theorem drawRows_ok_frame {factors : List Mat} {nCols : Nat}
    {custom : Option (List (Int × PlotFn))} (groups : List (List Int)) :
    ∀ (row : Nat) (axis axis' : AxArr),
      drawRows factors nCols custom row groups axis = .ok axis' →
      ∀ r' c', r' < row → axis'.get2 r' c' = axis.get2 r' c' := by
  induction groups with
  | nil =>
    intro row axis axis' h r' c' _
    simp only [drawRows] at h
    cases h
    rfl
  | cons grp rest ih =>
    intro row axis axis' h r' c' hr
    simp only [drawRows] at h
    split at h
    next => cases h
    next axis1 h1 =>
      rw [ih (row + 1) axis1 axis' h r' c' (Nat.lt_succ_of_lt hr)]
      exact drawRow_ok_frame grp 0 axis axis1 h1 r' c' (Or.inl (Nat.ne_of_lt hr))

theorem drawRows_ok_get2 {factors : List Mat} {nCols : Nat}
    {custom : Option (List (Int × PlotFn))} (groups : List (List Int)) :
    ∀ (row : Nat) (axis axis' : AxArr),
      drawRows factors nCols custom row groups axis = .ok axis' →
      ∀ i grp, groups[i]? = some grp →
        ∀ j c, grp[j]? = some c →
          ∃ pf A comp,
            plotBank nCols custom j = some pf ∧
            factors[j]? = some A ∧
            A.colSlice c = some comp ∧
            axis'.get2 (row + i) j =
              some (some ⟨pf, comp, panelTitle j c⟩) := by
  induction groups with
  | nil => intro row axis axis' h i grp hi; simp at hi
  | cons grp0 rest ih =>
    intro row axis axis' h i grp hi j c hj
    simp only [drawRows] at h
    split at h
    next => cases h
    next axis1 h1 =>
      cases i with
      | zero =>
        simp only [List.getElem?_cons_zero, Option.some.injEq] at hi
        subst hi
        obtain ⟨pf, A, comp, hp1, hp2, hp3, hp4⟩ :=
          drawRow_ok_get2 grp0 0 axis axis1 h1 j c hj
        refine ⟨pf, A, comp, by simpa using hp1, by simpa using hp2, hp3, ?_⟩
        have hfr := drawRows_ok_frame rest (row + 1) axis1 axis' h (row + 0) j
          (by omega)
        rw [hfr]
        simpa using hp4
      | succ i' =>
        have hi' : rest[i']? = some grp := by simpa using hi
        obtain ⟨pf, A, comp, hp1, hp2, hp3, hp4⟩ :=
          ih (row + 1) axis1 axis' h i' grp hi' j c hj
        rw [show row + (i' + 1) = row + 1 + i' from by omega]
        exact ⟨pf, A, comp, hp1, hp2, hp3, hp4⟩

theorem drawRows_ok_isGrid {factors : List Mat} {nCols : Nat}
    {custom : Option (List (Int × PlotFn))} {nr nc : Nat}
    (groups : List (List Int)) :
    ∀ (row : Nat) (axis axis' : AxArr),
      drawRows factors nCols custom row groups axis = .ok axis' →
      axis'.isGrid nr nc = axis.isGrid nr nc := by
  induction groups with
  | nil => intro _ _ _ h; cases h; rfl
  | cons grp rest ih =>
    intro row axis axis' h
    simp only [drawRows] at h
    split at h
    next => cases h
    next axis1 h1 =>
      rw [ih (row + 1) axis1 axis' h, drawRow_ok_isGrid grp 0 axis axis1 h1]

/-! ## Shape of the grid returned by the builder -/

theorem drawRow_one_err {factors : List Mat} {nCols : Nat}
    {custom : Option (List (Int × PlotFn))} {row mode : Nat}
    (v : List (Option Panel)) (c : Int) (rest : List Int) :
    ∃ e, drawRow factors nCols custom row mode (c :: rest) (.one v) = .error e := by
  simp only [drawRow]
  split
  · exact ⟨.keyError, rfl⟩
  · split
    · exact ⟨.indexError, rfl⟩
    · split
      · exact ⟨.indexError, rfl⟩
      · split
        · exact ⟨.indexError, rfl⟩
        · rename_i hg
          simp [AxArr.get2] at hg

theorem isGrid_two_replicate (nr nc : Nat) :
    (AxArr.two (List.replicate nr (List.replicate nc
      (none : Option Panel)))).isGrid nr nc = true := by
  simp only [AxArr.isGrid, List.length_replicate, List.all_eq_true,
    Bool.and_eq_true, decide_eq_true_eq]
  refine ⟨by simp, fun r hr => by rw [List.eq_of_mem_replicate hr]; simp⟩

theorem isGrid_two_singleton (nc : Nat) :
    (AxArr.two [List.replicate nc (none : Option Panel)]).isGrid 1 nc = true := by
  simp [AxArr.isGrid, List.all_eq_true]

theorem isGrid_transpose_singleton (nr : Nat) :
    (AxArr.two (transpose2 [List.replicate nr
      (none : Option Panel)])).isGrid nr 1 = true := by
  show (AxArr.two ((List.replicate nr (none : Option Panel)).map
    (fun p => [p]))).isGrid nr 1 = true
  simp only [List.map_replicate]
  simp only [AxArr.isGrid, List.length_replicate, List.all_eq_true,
    Bool.and_eq_true, decide_eq_true_eq]
  refine ⟨by simp, fun r hr => by rw [List.eq_of_mem_replicate hr]; rfl⟩

theorem plotComponentGroups_ok_shape {factors : List Mat}
    {combs : List (List Int)} {cp : Option (List (Int × PlotFn))} {g : AxArr}
    (h : _plot_component_groups factors combs cp = .ok g) :
    (combs.length = 1 ∧ factors.length = 1 ∧ g = .one [none] ∧
      ∀ grp ∈ combs, grp = []) ∨
    g.isGrid combs.length factors.length = true := by
  rw [_plot_component_groups] at h
  by_cases hnr0 : combs.length = 0
  · rw [subplots] at h; simp [hnr0] at h
  by_cases hnc0 : factors.length = 0
  · rw [subplots] at h; simp [hnc0] at h
  by_cases hnr1 : combs.length = 1
  · by_cases hnc1 : factors.length = 1
    · -- the 1×1 case: the "normalized" axis is still 1-D
      left
      rw [subplots] at h
      simp only [hnr1, hnc1] at h
      simp only [npArrayWrap, AxArr.transposeT] at h
      norm_num at h
      obtain ⟨grp, hcombs⟩ := List.length_eq_one.mp hnr1
      subst hcombs
      simp only [drawRows] at h
      split at h
      next => cases h
      next axis1 h1 =>
        cases h
        cases grp with
        | nil =>
          simp only [drawRow] at h1
          cases h1
          exact ⟨hnr1, hnc1, rfl, by intro grp hg; simpa using hg⟩
        | cons c rest =>
          obtain ⟨e, he⟩ :=
            @drawRow_one_err factors 1 cp 0 0 [none] c rest
          rw [he] at h1
          cases h1
    · -- one row, at least two columns
      right
      rw [subplots] at h
      simp only [hnr1] at h
      norm_num [hnc1, hnc0] at h
      simp only [npArrayWrap] at h
      rw [drawRows_ok_isGrid combs 0 _ g h, hnr1]
      exact isGrid_two_singleton factors.length
  · by_cases hnc1 : factors.length = 1
    · -- at least two rows, one column: the transpose path
      right
      rw [subplots] at h
      simp only [hnc1] at h
      norm_num [hnr1, hnr0] at h
      simp only [npArrayWrap, AxArr.transposeT] at h
      rw [drawRows_ok_isGrid combs 0 _ g h, hnc1]
      exact isGrid_transpose_singleton combs.length
    · -- at least two rows and two columns
      right
      rw [subplots] at h
      norm_num [hnr0, hnc0, hnr1, hnc1] at h
      rw [drawRows_ok_isGrid combs 0 _ g h]
      exact isGrid_two_replicate combs.length factors.length

/-! ## Success of the builder on well-formed inputs -/

theorem plotBank_isSome_of_lt {nCols : Nat}
    {custom : Option (List (Int × PlotFn))} {mode : Nat} (h : mode < nCols) :
    ∃ pf, plotBank nCols custom mode = some pf := by
  cases custom with
  | none => exact ⟨_line_plot, by simp [plotBank, h]⟩
  | some cp =>
    cases hl : cp.lookup (mode : Int) with
    | some f => exact ⟨f, by simp [plotBank, hl]⟩
    | none => exact ⟨_line_plot, by simp [plotBank, hl, h]⟩

theorem drawRow_ok_of_valid {factors : List Mat} {nCols : Nat}
    {custom : Option (List (Int × PlotFn))} {row nr : Nat} :
    ∀ (grp : List Int) (mode : Nat) (axis : AxArr),
      axis.isGrid nr nCols = true → row < nr → mode + grp.length ≤ nCols →
      (∀ (j : Nat) (c : Int), grp[j]? = some c →
        ∃ A : Mat, factors[mode + j]? = some A ∧ (A.colSlice c).isSome = true) →
      ∃ axis', drawRow factors nCols custom row mode grp axis = .ok axis' := by
  intro grp
  induction grp with
  | nil => intro mode axis _ _ _ _; exact ⟨axis, rfl⟩
  | cons c rest ih =>
    intro mode axis hg hrow hlen hval
    have hmode : mode < nCols := by simp at hlen; omega
    obtain ⟨pf, hpf⟩ := @plotBank_isSome_of_lt nCols custom mode hmode
    obtain ⟨A, hA, hslice⟩ := hval 0 c (by simp)
    rw [Nat.add_zero] at hA
    obtain ⟨comp, hcomp⟩ := Option.isSome_iff_exists.mp hslice
    obtain ⟨q, hq⟩ := get2_isSome_of_isGrid hg hrow hmode
    obtain ⟨axis', hrec⟩ := ih (mode + 1)
      (axis.set2 row mode ⟨pf, comp, panelTitle mode c⟩)
      (by rw [isGrid_set2]; exact hg) hrow (by simp at hlen ⊢; omega)
      (by intro j c' hj
          obtain ⟨A', hA', hs'⟩ := hval (j + 1) c' (by simpa using hj)
          exact ⟨A', by rw [show mode + 1 + j = mode + (j + 1) from by omega]; exact hA', hs'⟩)
    refine ⟨axis', ?_⟩
    simp only [drawRow, hpf, hA, hcomp, hq]
    exact hrec

theorem drawRows_ok_of_valid {factors : List Mat} {nCols : Nat}
    {custom : Option (List (Int × PlotFn))} {nr : Nat} :
    ∀ (groups : List (List Int)) (row : Nat) (axis : AxArr),
      axis.isGrid nr nCols = true → row + groups.length ≤ nr →
      (∀ (i : Nat) (grp : List Int), groups[i]? = some grp →
        grp.length ≤ nCols ∧
        ∀ (j : Nat) (c : Int), grp[j]? = some c →
          ∃ A : Mat, factors[j]? = some A ∧ (A.colSlice c).isSome = true) →
      ∃ axis', drawRows factors nCols custom row groups axis = .ok axis' := by
  intro groups
  induction groups with
  | nil => intro row axis _ _ _; exact ⟨axis, rfl⟩
  | cons grp rest ih =>
    intro row axis hg hlen hval
    obtain ⟨hgl, hgv⟩ := hval 0 grp (by simp)
    obtain ⟨axis1, h1⟩ := @drawRow_ok_of_valid factors nCols custom row nr grp 0 axis hg
      (by simp at hlen; omega) (by simpa using hgl)
      (by intro j c hj; simpa using hgv j c hj)
    obtain ⟨axis', hrec⟩ := ih (row + 1) axis1
      (by rw [drawRow_ok_isGrid grp 0 axis axis1 h1]; exact hg)
      (by simp at hlen ⊢; omega)
      (by intro i g hi; exact hval (i + 1) g (by simpa using hi))
    refine ⟨axis', ?_⟩
    simp only [drawRows, h1]
    exact hrec

theorem plotComponentGroups_ok_of_valid {factors : List Mat}
    {combs : List (List Int)} {cp : Option (List (Int × PlotFn))}
    (hnr : 1 ≤ combs.length) (hnc : 1 ≤ factors.length)
    (hne : ¬(combs.length = 1 ∧ factors.length = 1))
    (hval : ∀ (i : Nat) (grp : List Int), combs[i]? = some grp →
      grp.length ≤ factors.length ∧
      ∀ (j : Nat) (c : Int), grp[j]? = some c →
        ∃ A : Mat, factors[j]? = some A ∧ (A.colSlice c).isSome = true) :
    ∃ g, _plot_component_groups factors combs cp = .ok g ∧
      g.isGrid combs.length factors.length = true := by
  rw [_plot_component_groups]
  have hnr0 : ¬combs.length = 0 := by omega
  have hnc0 : ¬factors.length = 0 := by omega
  by_cases hnr1 : combs.length = 1
  · have hnc1 : ¬factors.length = 1 := fun hc => hne ⟨hnr1, hc⟩
    have hsub : subplots combs.length factors.length
        = .ok (.one (List.replicate factors.length none)) := by
      rw [subplots, if_neg (by simp [hnr0, hnc0]), if_neg (by simp [hnc1]),
        if_pos hnr1]
    simp only [hsub]
    rw [if_pos (Or.inl hnr1), if_neg hnc1]
    simp only [npArrayWrap]
    have hig : (AxArr.two [List.replicate factors.length
        (none : Option Panel)]).isGrid combs.length factors.length = true := by
      rw [hnr1]; exact isGrid_two_singleton factors.length
    obtain ⟨g, hgok⟩ := drawRows_ok_of_valid combs 0 _ hig (by omega) hval
    refine ⟨g, hgok, ?_⟩
    rw [drawRows_ok_isGrid combs 0 _ g hgok]
    exact hig
  · by_cases hnc1 : factors.length = 1
    · have hsub : subplots combs.length factors.length
          = .ok (.one (List.replicate combs.length none)) := by
        rw [subplots, if_neg (by simp [hnr0, hnc0]), if_neg (by simp [hnr1]),
          if_neg hnr1, if_pos hnc1]
      simp only [hsub]
      rw [if_pos (Or.inr hnc1), if_pos hnc1]
      simp only [npArrayWrap, AxArr.transposeT]
      have hig : (AxArr.two (transpose2 [List.replicate combs.length
          (none : Option Panel)])).isGrid combs.length factors.length = true := by
        rw [hnc1]; exact isGrid_transpose_singleton combs.length
      obtain ⟨g, hgok⟩ := drawRows_ok_of_valid combs 0 _ hig (by omega) hval
      refine ⟨g, hgok, ?_⟩
      rw [drawRows_ok_isGrid combs 0 _ g hgok]
      exact hig
    · have hsub : subplots combs.length factors.length
          = .ok (.two (List.replicate combs.length
              (List.replicate factors.length none))) := by
        rw [subplots, if_neg (by simp [hnr0, hnc0]), if_neg (by simp [hnr1]),
          if_neg hnr1, if_neg hnc1]
      simp only [hsub]
      rw [if_neg (by simp [hnr1, hnc1])]
      have hig : (AxArr.two (List.replicate combs.length (List.replicate
          factors.length (none : Option Panel)))).isGrid
          combs.length factors.length = true :=
        isGrid_two_replicate combs.length factors.length
      obtain ⟨g, hgok⟩ := drawRows_ok_of_valid combs 0 _ hig (by omega) hval
      refine ⟨g, hgok, ?_⟩
      rw [drawRows_ok_isGrid combs 0 _ g hgok]
      exact hig

/-! ## When the `plot_bank` lookup cannot fail -/

theorem subplots_ne_keyError (nr nc : Nat) :
    subplots nr nc ≠ .error .keyError := by
  rw [subplots]
  split_ifs <;> simp

theorem drawRow_ne_keyError {factors : List Mat} {nCols : Nat}
    {custom : Option (List (Int × PlotFn))} {row : Nat} :
    ∀ (grp : List Int) (mode : Nat) (axis : AxArr),
      mode + grp.length ≤ nCols →
      drawRow factors nCols custom row mode grp axis ≠ .error .keyError := by
  intro grp
  induction grp with
  | nil => intro mode axis _ h; simp [drawRow] at h
  | cons c rest ih =>
    intro mode axis hlen h
    simp only [drawRow] at h
    split at h
    next hnone =>
      obtain ⟨pf, hpf⟩ := @plotBank_isSome_of_lt nCols custom mode
        (show mode < nCols by simp at hlen; omega)
      rw [hpf] at hnone
      cases hnone
    next pf hpf =>
      split at h
      next => simp at h
      next A hA =>
        split at h
        next => simp at h
        next comp hcomp =>
          split at h
          next => simp at h
          next q hq =>
            exact ih (mode + 1) _ (by simp at hlen ⊢; omega) h

theorem drawRows_ne_keyError {factors : List Mat} {nCols : Nat}
    {custom : Option (List (Int × PlotFn))} :
    ∀ (groups : List (List Int)) (row : Nat) (axis : AxArr),
      (∀ grp ∈ groups, grp.length ≤ nCols) →
      drawRows factors nCols custom row groups axis ≠ .error .keyError := by
  intro groups
  induction groups with
  | nil => intro row axis _ h; simp [drawRows] at h
  | cons grp rest ih =>
    intro row axis hval h
    simp only [drawRows] at h
    split at h
    next e he =>
      cases h
      exact drawRow_ne_keyError grp 0 axis
        (by simpa using hval grp (by simp)) he
    next axis1 h1 =>
      exact ih (row + 1) axis1
        (fun g hg => hval g (List.mem_cons_of_mem _ hg)) h

theorem plotComponentGroups_ne_keyError {factors : List Mat}
    {combs : List (List Int)} {cp : Option (List (Int × PlotFn))}
    (hval : ∀ grp ∈ combs, grp.length ≤ factors.length) :
    _plot_component_groups factors combs cp ≠ .error .keyError := by
  intro h
  rw [_plot_component_groups] at h
  split at h
  next e he =>
    cases h
    exact subplots_ne_keyError _ _ he
  next axis0 he =>
    exact drawRows_ne_keyError combs 0 _ hval h

/-! ## Panels of a successful build -/

theorem plotComponentGroups_ok_get2 {factors : List Mat}
    {combs : List (List Int)} {cp : Option (List (Int × PlotFn))} {g : AxArr}
    (hok : _plot_component_groups factors combs cp = .ok g) :
    ∀ (r : Nat) (grp : List Int), combs[r]? = some grp →
      ∀ (m : Nat) (c : Int), grp[m]? = some c →
        ∃ pf A comp,
          plotBank factors.length cp m = some pf ∧
          factors[m]? = some A ∧
          A.colSlice c = some comp ∧
          g.get2 r m = some (some ⟨pf, comp, panelTitle m c⟩) := by
  intro r grp hr m c hm
  rw [_plot_component_groups] at hok
  split at hok
  next => cases hok
  next axis0 he =>
    have h := drawRows_ok_get2 combs 0 _ g hok r grp hr m c hm
    simpa using h

theorem numRows2_of_isGrid {g : AxArr} {nr nc : Nat}
    (h : g.isGrid nr nc = true) : g.numRows2 = some nr := by
  cases g with
  | scalar _ => simp [AxArr.isGrid] at h
  | one _ => simp [AxArr.isGrid] at h
  | two m =>
    simp only [AxArr.isGrid, Bool.and_eq_true, decide_eq_true_eq] at h
    simp [AxArr.numRows2, h.1]

/-- `sub` occurs as a contiguous substring of `s`. -/
def strContains (s sub : String) : Prop := ∃ u v, s = u ++ (sub ++ v)

theorem panelTitle_contains_mode (m : Nat) (c : Int) :
    strContains (panelTitle m c) ("Mode-" ++ toString m) := by
  refine ⟨"", ", Component #" ++ toString c, ?_⟩
  simp [panelTitle, String.append_assoc]

theorem panelTitle_contains_component (m : Nat) (c : Int) :
    strContains (panelTitle m c) ("Component #" ++ toString c) := by
  refine ⟨"Mode-" ++ toString m ++ ", ", "", ?_⟩
  have h : (", Component #" : String) = ", " ++ "Component #" := rfl
  simp only [panelTitle, String.append_assoc, String.append_empty]
  rw [h, String.append_assoc]

/-! ## Column slices in and out of range -/

theorem colSlice_nonneg {A : Mat} {c : Int} (h1 : 0 ≤ c)
    (h2 : c < (A.shape1 : Int)) :
    A.colSlice c = A.cols[c.toNat]? ∧ (A.colSlice c).isSome = true := by
  have he : A.colSlice c = A.cols[c.toNat]? := by
    rw [Mat.colSlice, if_pos h1,
      if_pos (show c < ((A.cols.length : Nat) : Int) from h2)]
  refine ⟨he, ?_⟩
  rw [he, List.getElem?_eq_getElem (by simp [Mat.shape1] at h2; omega)]
  rfl

theorem colSlice_neg {A : Mat} {c : Int} (h1 : -(A.shape1 : Int) ≤ c)
    (h2 : c < 0) :
    A.colSlice c = A.cols[((A.shape1 : Int) + c).toNat]? ∧
      (A.colSlice c).isSome = true := by
  have he : A.colSlice c = A.cols[((A.shape1 : Int) + c).toNat]? := by
    rw [Mat.colSlice, if_neg (show ¬(0 : Int) ≤ c by omega),
      if_pos (show -((A.cols.length : Nat) : Int) ≤ c from h1)]
    rfl
  refine ⟨he, ?_⟩
  rw [he, List.getElem?_eq_getElem
    (by simp [Mat.shape1] at h1 ⊢; omega)]
  rfl

theorem colSlice_isSome_of_range {A : Mat} {c : Int}
    (h1 : -(A.shape1 : Int) ≤ c) (h2 : c < (A.shape1 : Int)) :
    (A.colSlice c).isSome = true := by
  rcases le_or_lt 0 c with h | h
  · exact (colSlice_nonneg h h2).2
  · exact (colSlice_neg h1 h).2

/-! ## Concrete factor matrices for the concrete instances -/

/-- A 2×2 factor matrix with columns `[1, 2]` and `[3, 4]`. -/
def Amat : Mat := ⟨[[1, 2], [3, 4]]⟩

/-- A 2×2 factor matrix with columns `[5, 6]` and `[7, 8]`. -/
def Bmat : Mat := ⟨[[5, 6], [7, 8]]⟩

/-- `plot_kruskal_factors` with explicit components delegates to the builder
on the replicated combinations. -/
theorem plot_kruskal_some_eq (factors : List Mat) (cs : List Int)
    (maxd : Int) (cp : Option (List (Int × PlotFn))) :
    plot_kruskal_factors factors (some cs) maxd cp =
      _plot_component_groups factors (kruskalCombinations factors cs) cp := rfl

/-- `plot_kruskal_factors` with `components = None` first runs the default
selection, then delegates to the builder. -/
theorem plot_kruskal_none_eq (factors : List Mat) (maxd : Int)
    (cp : Option (List (Int × PlotFn))) :
    plot_kruskal_factors factors none maxd cp =
      match kruskalDefaultComponents factors maxd with
      | .error e => .error e
      | .ok comps =>
        _plot_component_groups factors (kruskalCombinations factors comps) cp := rfl

/-! ## The claims -/

/-- Claim C1 (code evidence): the 1×1 case breaks the claimed row/column
invariant.  With one factor matrix and the non-empty combination list
`[()]`, the builder returns a 1-D array of shape `(1,)` — not a grid with
`len(factors) = 1` columns and `len(combinations) = 1` rows; and with the
combination `(0,)` it raises `IndexError` instead of returning a grid,
contradicting the documented 2-D `(row, col)` return shape. -/
theorem c1_one_by_one_wrong_shape :
    plot_tucker_factors [Amat] (some [[]]) none = .ok (.one [none]) ∧
    (AxArr.one [none]).isGrid 1 1 = false ∧
    plot_tucker_factors [Amat] (some [[0]]) none = .error .indexError := by
  refine ⟨rfl, rfl, rfl⟩

/-- Claim C6 (code evidence): the normalization does not make the 1×1 grid
two-index addressable.  `np.array([axis])` on the scalar axes gives a 1-D
shape-`(1,)` array, `.T` leaves it 1-D, and `axis[0, 0]` then raises
`IndexError` — so the builder itself crashes on any 1×1 call with a
non-empty combination, against the code's own comment that the axis is
always kept as a 2-D `[n_rows, n_cols]` array. -/
theorem c6_two_index_addressing_fails :
    plot_tucker_factors [Bmat] (some [[0]]) none = .error .indexError ∧
    (AxArr.one [none]).get2 0 0 = none := by
  refine ⟨rfl, rfl⟩

/-- Claim C2: on a successful build, the panel at grid position `(r, m)` was
drawn by invoking mode `m`'s rendering function on the 1-D slice
`factors[m][:, combinations[r][m]]`, and the panel's title contains
`"Mode-m"` and `"Component #c"` where `c = combinations[r][m]`. -/
theorem c2_panel_content_and_title {factors : List Mat}
    {combs : List (List Int)} {cp : Option (List (Int × PlotFn))} {g : AxArr}
    (hok : _plot_component_groups factors combs cp = .ok g)
    {r m : Nat} {grp : List Int} {c : Int}
    (hr : combs[r]? = some grp) (hm : grp[m]? = some c) :
    ∃ pf A comp,
      plotBank factors.length cp m = some pf ∧
      factors[m]? = some A ∧
      A.colSlice c = some comp ∧
      g.get2 r m = some (some ⟨pf, comp, panelTitle m c⟩) ∧
      strContains (panelTitle m c) ("Mode-" ++ toString m) ∧
      strContains (panelTitle m c) ("Component #" ++ toString c) := by
  obtain ⟨pf, A, comp, h1, h2, h3, h4⟩ :=
    plotComponentGroups_ok_get2 hok r grp hr m c hm
  exact ⟨pf, A, comp, h1, h2, h3, h4,
    panelTitle_contains_mode m c, panelTitle_contains_component m c⟩

/-- Concrete instance of claim C2 at factors `[Amat, Bmat]`, combination
`(0, 1)`, position `(0, 1)`. -/
theorem c2_panel_content_and_title_witness :
    ∃ pf A comp,
      plotBank [Amat, Bmat].length none 1 = some pf ∧
      [Amat, Bmat][1]? = some A ∧
      A.colSlice 1 = some comp ∧
      (AxArr.two [[some ⟨PlotFn.line_plot, [1, 2], panelTitle 0 0⟩,
        some ⟨PlotFn.line_plot, [7, 8], panelTitle 1 1⟩]]).get2 0 1 =
        some (some ⟨pf, comp, panelTitle 1 1⟩) ∧
      strContains (panelTitle 1 1) ("Mode-" ++ toString 1) ∧
      strContains (panelTitle 1 1) ("Component #" ++ toString (1 : Int)) :=
  @c2_panel_content_and_title [Amat, Bmat] [[0, 1]] none
    (AxArr.two [[some ⟨PlotFn.line_plot, [1, 2], panelTitle 0 0⟩,
      some ⟨PlotFn.line_plot, [7, 8], panelTitle 1 1⟩]])
    rfl 0 1 [0, 1] 1 rfl rfl

/-- Claim C7 is false as stated: with a combination longer than the factors
list, the rendering-function lookup `plot_bank[mode]` fails with `KeyError`
even through a public entry point. -/
theorem c7_lookup_keyerror_cex :
    plot_tucker_factors [Amat, Bmat] (some [[0, 0, 0]]) none =
      .error .keyError := by
  rfl

/-- Claim C7 (amended): the rendering-function lookup never fails provided
every combination is at most as long as the factors list; the CP entry point
and the Tucker default always satisfy this, so through those paths the
lookup can never raise `KeyError`. -/
theorem c7_lookup_total_amended (factors : List Mat)
    (cp : Option (List (Int × PlotFn))) :
    (∀ combs : List (List Int),
      (∀ grp ∈ combs, grp.length ≤ factors.length) →
      plot_tucker_factors factors (some combs) cp ≠ .error .keyError) ∧
    plot_tucker_factors factors none cp ≠ .error .keyError ∧
    (∀ (components : Option (List Int)) (maxd : Int),
      plot_kruskal_factors factors components maxd cp ≠ .error .keyError) := by
  refine ⟨?_, ?_, ?_⟩
  · intro combs hval
    exact plotComponentGroups_ne_keyError hval
  · exact plotComponentGroups_ne_keyError
      (by intro grp hg; simp at hg; subst hg; simp)
  · intro components maxd
    cases components with
    | some cs =>
      rw [plot_kruskal_some_eq]
      exact plotComponentGroups_ne_keyError
        (by intro grp hg
            simp [kruskalCombinations] at hg
            obtain ⟨c, _, rfl⟩ := hg
            simp)
    | none =>
      intro h
      rw [plot_kruskal_none_eq] at h
      split at h
      next e he =>
        cases h
        rw [kruskalDefaultComponents] at he
        split at he
        next => simp at he
        next => simp at he
      next comps hsel =>
        exact plotComponentGroups_ne_keyError
          (by intro grp hg
              simp [kruskalCombinations] at hg
              obtain ⟨c, _, rfl⟩ := hg
              simp) h

/-- Concrete instance of the amended claim C7. -/
theorem c7_lookup_total_amended_witness :
    plot_tucker_factors [Amat, Bmat] (some [[0, 0]]) none ≠ .error .keyError :=
  (c7_lookup_total_amended [Amat, Bmat] none).1 [[0, 0]] (by decide)

/-- Claim C3: with `components = None`, the CP/Kruskal plotter auto-selects
exactly the indices `0..k-1` where `k = min(max_default_length,
factors[0].shape[1])`; the number of auto-selected components equals that
minimum, and so does the number of grid rows whenever the call returns. -/
theorem c3_kruskal_auto_selection (A : Mat) (fs : List Mat) (maxd : Int)
    (cp : Option (List (Int × PlotFn))) :
    kruskalDefaultComponents (A :: fs) maxd =
      .ok ((List.range (min maxd (A.shape1 : Int)).toNat).map
        (fun i => Int.ofNat i)) ∧
    ((List.range (min maxd (A.shape1 : Int)).toNat).map
      (fun i => Int.ofNat i)).length = (min maxd (A.shape1 : Int)).toNat ∧
    ∀ g : AxArr, plot_kruskal_factors (A :: fs) none maxd cp = .ok g →
      g.numRows2 = some (min maxd (A.shape1 : Int)).toNat := by
  have hsel : kruskalDefaultComponents (A :: fs) maxd =
      .ok ((List.range (min maxd (A.shape1 : Int)).toNat).map
        (fun i => Int.ofNat i)) := by
    rw [kruskalDefaultComponents]
    simp only [List.getElem?_cons_zero]
    have hd : (if (A.shape1 : Int) ≥ maxd then maxd else (A.shape1 : Int))
        = min maxd (A.shape1 : Int) := by
      rw [min_def]
    rw [hd]
  refine ⟨hsel, by simp, ?_⟩
  intro g hok
  rw [plot_kruskal_none_eq] at hok
  simp only [hsel] at hok
  rcases plotComponentGroups_ok_shape hok with ⟨h1, _, _, hempty⟩ | hgrid
  · exfalso
    obtain ⟨grp, hgrp⟩ := List.length_eq_one.mp h1
    have hmem : grp ∈ kruskalCombinations (A :: fs)
        ((List.range (min maxd (A.shape1 : Int)).toNat).map
          (fun i => Int.ofNat i)) := by
      rw [hgrp]; simp
    simp only [kruskalCombinations, List.mem_map] at hmem
    obtain ⟨c, _, hc⟩ := hmem
    have hnil := hempty grp (by rw [hgrp]; simp)
    rw [← hc] at hnil
    simp at hnil
  · rw [numRows2_of_isGrid hgrid]
    simp [kruskalCombinations]

/-- The grid produced by the concrete CP calls on `[Amat, Bmat]` with
component indices `0` and `1`. -/
def gridCP : AxArr :=
  .two [[some ⟨.line_plot, [1, 2], panelTitle 0 0⟩,
         some ⟨.line_plot, [5, 6], panelTitle 1 0⟩],
        [some ⟨.line_plot, [3, 4], panelTitle 0 1⟩,
         some ⟨.line_plot, [7, 8], panelTitle 1 1⟩]]

/-- Concrete instance of claim C3: two 2-column factor matrices and
`max_default_length = 5` give `min 5 2 = 2` auto-selected components and a
2-row grid. -/
theorem c3_kruskal_auto_selection_witness :
    gridCP.numRows2 = some (min 5 ((Amat.shape1 : Int))).toNat :=
  (c3_kruskal_auto_selection Amat [Bmat] 5 none).2.2 gridCP rfl

/-- Claim C4: for the CP/Kruskal plotter, each selected component index `i`
yields exactly one combination replicating that index across all
`len(factors)` modes, and on success row `i` of the grid uses component
index `components[i]` in every column. -/
theorem c4_kruskal_replicated (factors : List Mat) (cs : List Int)
    (maxd : Int) (cp : Option (List (Int × PlotFn))) :
    (kruskalCombinations factors cs).length = cs.length ∧
    (∀ (i : Nat) (c : Int), cs[i]? = some c →
      (kruskalCombinations factors cs)[i]? =
        some (List.replicate factors.length c) ∧
      ∀ m : Nat, m < factors.length →
        (List.replicate factors.length c)[m]? = some c) ∧
    ∀ g : AxArr, plot_kruskal_factors factors (some cs) maxd cp = .ok g →
      ∀ (i : Nat) (c : Int), cs[i]? = some c →
        ∀ m : Nat, m < factors.length →
          ∃ pf A comp,
            plotBank factors.length cp m = some pf ∧
            factors[m]? = some A ∧ A.colSlice c = some comp ∧
            g.get2 i m = some (some ⟨pf, comp, panelTitle m c⟩) := by
  refine ⟨by simp [kruskalCombinations], ?_, ?_⟩
  · intro i c hc
    refine ⟨by simp [kruskalCombinations, hc], ?_⟩
    intro m hm
    simp [List.getElem?_replicate, hm]
  · intro g hok i c hc m hm
    rw [plot_kruskal_some_eq] at hok
    exact plotComponentGroups_ok_get2 hok i (List.replicate factors.length c)
      (by simp [kruskalCombinations, hc]) m c
      (by simp [List.getElem?_replicate, hm])

/-- Concrete instance of claim C4 at components `[0, 1]`: row 0 uses
component 0 in column 1 as well. -/
theorem c4_kruskal_replicated_witness :
    ∃ pf A comp,
      plotBank [Amat, Bmat].length none 1 = some pf ∧
      [Amat, Bmat][1]? = some A ∧
      A.colSlice 0 = some comp ∧
      gridCP.get2 0 1 = some (some ⟨pf, comp, panelTitle 1 0⟩) :=
  (c4_kruskal_replicated [Amat, Bmat] [0, 1] 5 none).2.2 gridCP rfl
    0 0 rfl 1 (by decide)

/-- Claim C5: on a successful build with the override map `cp`, every panel
in a column whose mode is overridden is drawn by the override function, and
every panel in a non-overridden column by the default line renderer. -/
theorem c5_override_per_column {factors : List Mat} {combs : List (List Int)}
    {cp : List (Int × PlotFn)} {g : AxArr}
    (hok : _plot_component_groups factors combs (some cp) = .ok g)
    {r m : Nat} {grp : List Int} {c : Int}
    (hr : combs[r]? = some grp) (hm : grp[m]? = some c) :
    (∀ f, cp.lookup (m : Int) = some f →
      ∃ A comp, factors[m]? = some A ∧ A.colSlice c = some comp ∧
        g.get2 r m = some (some ⟨f, comp, panelTitle m c⟩)) ∧
    (cp.lookup (m : Int) = none →
      ∃ A comp, factors[m]? = some A ∧ A.colSlice c = some comp ∧
        g.get2 r m = some (some ⟨_line_plot, comp, panelTitle m c⟩)) := by
  obtain ⟨pf, A, comp, h1, h2, h3, h4⟩ :=
    plotComponentGroups_ok_get2 hok r grp hr m c hm
  constructor
  · intro f hf
    simp only [plotBank, hf, Option.some.injEq] at h1
    rw [← h1] at h4
    exact ⟨A, comp, h2, h3, h4⟩
  · intro hf
    have hmlt : m < factors.length := by
      rcases Nat.lt_or_ge m factors.length with h | h
      · exact h
      · rw [List.getElem?_eq_none h] at h2; cases h2
    simp only [plotBank, hf, hmlt, if_pos, Option.some.injEq] at h1
    rw [← h1] at h4
    exact ⟨A, comp, h2, h3, h4⟩

/-- The grid produced by the concrete override call in the C5 instance. -/
def gridOv : AxArr :=
  .two [[some ⟨.line_plot, [1, 2], panelTitle 0 0⟩,
         some ⟨.custom 7, [7, 8], panelTitle 1 1⟩],
        [some ⟨.line_plot, [3, 4], panelTitle 0 1⟩,
         some ⟨.custom 7, [5, 6], panelTitle 1 0⟩]]

/-- Concrete instance of claim C5: overriding mode 1 with a custom function
draws column 1 with it while column 0 stays on the line renderer. -/
theorem c5_override_per_column_witness :
    (∃ A comp, [Amat, Bmat][1]? = some A ∧ A.colSlice 1 = some comp ∧
      gridOv.get2 0 1 = some (some ⟨PlotFn.custom 7, comp, panelTitle 1 1⟩)) ∧
    (∃ A comp, [Amat, Bmat][0]? = some A ∧ A.colSlice 0 = some comp ∧
      gridOv.get2 0 0 = some (some ⟨_line_plot, comp, panelTitle 0 0⟩)) :=
  ⟨(@c5_override_per_column [Amat, Bmat] [[0, 1], [1, 0]]
      [(1, PlotFn.custom 7)] gridOv rfl 0 1 [0, 1] 1 rfl rfl).1
      (PlotFn.custom 7) rfl,
   (@c5_override_per_column [Amat, Bmat] [[0, 1], [1, 0]]
      [(1, PlotFn.custom 7)] gridOv rfl 0 0 [0, 1] 0 rfl rfl).2 rfl⟩

/-- Claim C8 is false as stated: a combination shorter than the factors list
has a length that "does not match the number of factors", yet the call
succeeds — the extra column's panel is simply left untouched. -/
theorem c8_short_combination_cex :
    plot_tucker_factors [Amat, Bmat] (some [[0]]) none =
      .ok (.two [[some ⟨.line_plot, [1, 2], panelTitle 0 0⟩, none]]) := by
  rfl

/-- Claim C8 (amended): no explicit validation is performed; a combination
longer than the factors list, or a component index out of range for its
factor matrix, makes the call fail with the uncaught error raised by the
underlying mapping lookup or array access, while a combination shorter than
the factors list is not rejected. -/
theorem c8_malformed_inputs_fail {factors : List Mat}
    {combs : List (List Int)} {cp : Option (List (Int × PlotFn))}
    {r : Nat} {grp : List Int} (hr : combs[r]? = some grp) :
    (grp.length > factors.length →
      ∃ e, _plot_component_groups factors combs cp = .error e) ∧
    (∀ (m : Nat) (c : Int) (A : Mat), grp[m]? = some c →
      factors[m]? = some A → A.colSlice c = none →
      ∃ e, _plot_component_groups factors combs cp = .error e) := by
  constructor
  · intro hlong
    cases hres : _plot_component_groups factors combs cp with
    | error e => exact ⟨e, rfl⟩
    | ok g =>
      exfalso
      have hflt : factors.length < grp.length := hlong
      have hc : grp[factors.length]? = some grp[factors.length] :=
        List.getElem?_eq_getElem hflt
      obtain ⟨pf, A, comp, _, hA, _, _⟩ :=
        plotComponentGroups_ok_get2 hres r grp hr factors.length _ hc
      rw [List.getElem?_eq_none (le_refl _)] at hA
      cases hA
  · intro m c A hm hA hnone
    cases hres : _plot_component_groups factors combs cp with
    | error e => exact ⟨e, rfl⟩
    | ok g =>
      exfalso
      obtain ⟨pf, A', comp, _, hA', hs, _⟩ :=
        plotComponentGroups_ok_get2 hres r grp hr m c hm
      rw [hA] at hA'
      cases hA'
      rw [hnone] at hs
      cases hs

/-- Concrete instance of the amended claim C8: a combination of length 3
against 2 factor matrices makes the call fail. -/
theorem c8_malformed_inputs_fail_witness :
    ∃ e, _plot_component_groups [Amat, Bmat] [[0, 0, 0]] none = .error e :=
  (@c8_malformed_inputs_fail [Amat, Bmat] [[0, 0, 0]] none 0 [0, 0, 0]
    rfl).1 (by decide)

/-- Claim C9: with `combinations = None`, the Tucker plotter produces exactly
one combination — index 0 in every one of the `len(factors)` modes — and the
grid has exactly one row whenever the call returns. -/
theorem c9_tucker_default (factors : List Mat)
    (cp : Option (List (Int × PlotFn))) :
    plot_tucker_factors factors none cp =
      _plot_component_groups factors
        [List.replicate factors.length (0 : Int)] cp ∧
    [List.replicate factors.length (0 : Int)].length = 1 ∧
    (∀ m : Nat, m < factors.length →
      (List.replicate factors.length (0 : Int))[m]? = some 0) ∧
    ∀ g : AxArr, plot_tucker_factors factors none cp = .ok g →
      g.numRows2 = some 1 := by
  refine ⟨rfl, rfl, ?_, ?_⟩
  · intro m hm
    simp [List.getElem?_replicate, hm]
  · intro g hok
    have hok' : _plot_component_groups factors
        [List.replicate factors.length (0 : Int)] cp = .ok g := hok
    rcases plotComponentGroups_ok_shape hok' with ⟨_, hf1, _, hempty⟩ | hgrid
    · exfalso
      have hnil := hempty (List.replicate factors.length 0) (by simp)
      rw [hf1] at hnil
      simp at hnil
    · rw [numRows2_of_isGrid hgrid]
      rfl

/-- Concrete instance of claim C9: two factor matrices, no combinations
given, one grid row selecting component 0 in both modes. -/
theorem c9_tucker_default_witness :
    (AxArr.two [[some ⟨PlotFn.line_plot, [1, 2], panelTitle 0 0⟩,
      some ⟨PlotFn.line_plot, [5, 6], panelTitle 1 0⟩]]).numRows2 = some 1 :=
  (c9_tucker_default [Amat, Bmat] none).2.2.2
    (AxArr.two [[some ⟨PlotFn.line_plot, [1, 2], panelTitle 0 0⟩,
      some ⟨PlotFn.line_plot, [5, 6], panelTitle 1 0⟩]]) rfl

/-- Claim C10: negative in-range component indices do not make the grid
builder raise.  On a well-formed call whose combinations may contain
negative indices `-R ≤ c ≤ -1`, the build succeeds, the panel for such an
index is drawn from column `R + c` (counting from the end), and its title
embeds the negative index as given. -/
theorem c10_negative_index {factors : List Mat} {combs : List (List Int)}
    {cp : Option (List (Int × PlotFn))}
    (hnr : 1 ≤ combs.length) (hnc : 1 ≤ factors.length)
    (hne : ¬(combs.length = 1 ∧ factors.length = 1))
    (hlen : ∀ grp ∈ combs, grp.length ≤ factors.length)
    (hrange : ∀ grp ∈ combs, ∀ (m : Nat) (c : Int) (A : Mat),
      grp[m]? = some c → factors[m]? = some A →
      -(A.shape1 : Int) ≤ c ∧ c < (A.shape1 : Int)) :
    ∃ g, _plot_component_groups factors combs cp = .ok g ∧
      ∀ (r m : Nat) (grp : List Int) (c : Int),
        combs[r]? = some grp → grp[m]? = some c → c < 0 →
        ∃ pf A, plotBank factors.length cp m = some pf ∧
          factors[m]? = some A ∧
          ∃ col, A.cols[((A.shape1 : Int) + c).toNat]? = some col ∧
            A.colSlice c = some col ∧
            g.get2 r m = some (some ⟨pf, col, panelTitle m c⟩) := by
  have hval : ∀ (i : Nat) (grp : List Int), combs[i]? = some grp →
      grp.length ≤ factors.length ∧
      ∀ (j : Nat) (c : Int), grp[j]? = some c →
        ∃ A : Mat, factors[j]? = some A ∧ (A.colSlice c).isSome = true := by
    intro i grp hi
    have hmem : grp ∈ combs := List.getElem?_mem hi
    refine ⟨hlen grp hmem, ?_⟩
    intro j c hj
    obtain ⟨hjlt, _⟩ := List.getElem?_eq_some_iff.mp hj
    have hjf : j < factors.length := lt_of_lt_of_le hjlt (hlen grp hmem)
    have hA : factors[j]? = some factors[j] :=
      List.getElem?_eq_getElem hjf
    obtain ⟨hge, hlt⟩ := hrange grp hmem j c _ hj hA
    exact ⟨_, hA, colSlice_isSome_of_range hge hlt⟩
  obtain ⟨g, hok, _⟩ := plotComponentGroups_ok_of_valid hnr hnc hne hval
  refine ⟨g, hok, ?_⟩
  intro r m grp c hr hm hneg
  obtain ⟨pf, A, comp, h1, h2, h3, h4⟩ :=
    plotComponentGroups_ok_get2 hok r grp hr m c hm
  obtain ⟨hge, _⟩ := hrange grp (List.getElem?_mem hr) m c A hm h2
  obtain ⟨heq, _⟩ := colSlice_neg hge hneg
  refine ⟨pf, A, h1, h2, comp, ?_, h3, h4⟩
  rw [← heq]
  exact h3

/-- Concrete instance of claim C10: combinations `[(-1, -2)]` on two 2-column
matrices succeed, drawing columns `1` and `0` with titles embedding the
negative indices. -/
theorem c10_negative_index_witness :
    ∃ g, _plot_component_groups [Amat, Bmat] [[-1, -2]] none = .ok g ∧
      ∀ (r m : Nat) (grp : List Int) (c : Int),
        [[-1, -2]][r]? = some grp → grp[m]? = some c → c < 0 →
        ∃ pf A, plotBank [Amat, Bmat].length none m = some pf ∧
          [Amat, Bmat][m]? = some A ∧
          ∃ col, A.cols[((A.shape1 : Int) + c).toNat]? = some col ∧
            A.colSlice c = some col ∧
            g.get2 r m = some (some ⟨pf, col, panelTitle m c⟩) :=
  c10_negative_index (by decide) (by decide) (by decide) (by decide)
    (by intro grp hg m c A hm hA
        have hg' : grp = [-1, -2] := by simpa using hg
        subst hg'
        rcases m with _ | m
        · simp only [List.getElem?_cons_zero, Option.some.injEq] at hm hA
          subst hm
          subst hA
          exact ⟨by decide, by decide⟩
        · rcases m with _ | m
          · simp only [List.getElem?_cons_succ, List.getElem?_cons_zero,
              Option.some.injEq] at hm hA
            subst hm
            subst hA
            exact ⟨by decide, by decide⟩
          · simp at hm)

end Visualisation
